import Mathlib

set_option maxRecDepth 3000

/-!
Verification of the ArtSolve backend's response post-processing pipeline
(`src/main.py`): the currency normalizer `convert_currency`, the physics
matcher `analyze_physics_equation`, the math formatter
`format_math_expression`, and the orchestration in `analyze_image`.

Modelling conventions (shallow embedding of the Python source):

* Strings are `String`/`List Char`; the regular expressions of the source
  are translated into explicit scanners that implement the same leftmost
  search, greedy repetition and alternation order as Python `re` on the
  character classes the patterns use (ASCII digits and whitespace; the
  case folding needed by `re.IGNORECASE` is modelled for the characters
  that occur in the patterns).
* Python floats are idealized as exact rationals (`ℚ`); `round(x, 2)`
  becomes round-half-to-even at two decimals, and `str` of a float value
  is rendered as its shortest exact decimal.  Every concrete value a
  theorem below evaluates is a dyadic rational that a double represents
  exactly, so the idealization is faithful on those inputs.
* The external collaborators (the Gemini call and the live
  `CurrencyRates.convert`) are parameters: a live-rate function returns
  `Option ℚ`, `none` standing for the exception path, and the gateway
  reply is an explicit datatype.  `eval` on the sanitized arithmetic
  string is modelled by a recursive-descent evaluator for Python's
  arithmetic expressions over digits and `+ - * / ( ) .` (with Python's
  int/float distinction); Python constructs outside plain arithmetic that
  the character set could still spell (such as the empty tuple `()`) are
  modelled as evaluation failure, and `try/except` thus becomes `Option`.
-/

/-- ASCII whitespace, the characters Python's `str.strip`, `\s` and
`str.isspace` agree on for ASCII text. -/
def pyIsSpace (c : Char) : Bool :=
  c = ' ' || c = '\t' || c = '\n' || c = '\r' || c = '\x0b' || c = '\x0c'

/-- Case folding used by `re.IGNORECASE`, restricted to the alphabet of the
source's patterns (ASCII letters plus the lambda of the wave equation). -/
def pyLower (c : Char) : Char :=
  if c = 'Λ' then 'λ' else c.toLower

/-- Python `str.strip()` on a character list. -/
def pyStrip (l : List Char) : List Char :=
  ((l.dropWhile pyIsSpace).reverse.dropWhile pyIsSpace).reverse

/-- `pat` is a prefix of `s` (literal, case-sensitive). -/
def startsWith : List Char → List Char → Bool
  | [], _ => true
  | _ :: _, [] => false
  | p :: ps, c :: cs => p == c && startsWith ps cs

/-- `pat` is a prefix of `s` up to `re.IGNORECASE` case folding. -/
def startsWithCI : List Char → List Char → Bool
  | [], _ => true
  | _ :: _, [] => false
  | p :: ps, c :: cs => pyLower p == pyLower c && startsWithCI ps cs

/-- Python `str.replace(pat, rep)`: leftmost, non-overlapping.  The fuel
argument (instantiated with the input's length, which bounds the number of
steps when `pat` is non-empty, as in every use below) keeps the recursion
structural so that concrete inputs evaluate. -/
def replaceListAux (pat rep : List Char) : ℕ → List Char → List Char
  | _, [] => []
  | 0, s => s
  | fuel + 1, c :: cs =>
    if startsWith pat (c :: cs) then
      rep ++ replaceListAux pat rep fuel ((c :: cs).drop pat.length)
    else c :: replaceListAux pat rep fuel cs

/-- Python `str.replace(pat, rep)` for non-empty `pat`. -/
def replaceList (pat rep s : List Char) : List Char :=
  replaceListAux pat rep s.length s

/-! ## Currency Normalizer (`convert_currency`, main.py lines 90-140) -/

/-- The currency symbols of the regex class `[$€£¥₹]`. -/
def isCurrencySymbol (c : Char) : Bool :=
  c = '$' || c = '€' || c = '£' || c = '¥' || c = '₹'

/-- The regex class `[A-Za-z]`. -/
def isAsciiLetter (c : Char) : Bool :=
  ('A' ≤ c && c ≤ 'Z') || ('a' ≤ c && c ≤ 'z')

/-- The normalization step `text.replace('->', ' to ').replace('in', ' to ')`
(case-sensitive plain substring replacement). -/
def normalizeCurrencyL (l : List Char) : List Char :=
  replaceList ['i', 'n'] [' ', 't', 'o', ' ']
    (replaceList ['-', '>'] [' ', 't', 'o', ' '] l)

/-- The group `(\d+\.?\d*)`: greedy digits, optional dot, greedy digits.
Returns the matched numeral and the rest.  (Backtracking out of this group
can never rescue a failing match attempt, because the following piece of the
pattern can only start with a currency symbol or a letter, which no digit or
dot is; so the greedy scan is exactly the regex's behavior.) -/
def scanNumber (s : List Char) : Option (List Char × List Char) :=
  let d1 := s.takeWhile Char.isDigit
  if d1.isEmpty then none
  else
    match s.drop d1.length with
    | '.' :: r2 =>
      let d2 := r2.takeWhile Char.isDigit
      some (d1 ++ '.' :: d2, r2.drop d2.length)
    | r1 => some (d1, r1)

/-- The group `([$€£¥₹]|[A-Za-z]{3})`, alternatives in the source's order. -/
def scanCurrency : List Char → Option (List Char × List Char)
  | [] => none
  | c :: rest =>
    if isCurrencySymbol c then some ([c], rest)
    else
      match rest with
      | b :: d :: r =>
        if isAsciiLetter c && isAsciiLetter b && isAsciiLetter d then
          some ([c, b, d], r)
        else none
      | _ => none

/-- The literal `to` under `re.IGNORECASE`. -/
def scanLitTo : List Char → Option (List Char)
  | t :: o :: r => if pyLower t == 't' && pyLower o == 'o' then some r else none
  | _ => none

/-- One attempt of the currency pattern
`(\d+\.?\d*)\s*([$€£¥₹]|[A-Za-z]{3})\s*to\s*([$€£¥₹]|[A-Za-z]{3})` at the
head of `s`.  Each `\s*` is followed by a piece that cannot start with
whitespace, so its greedy scan needs no backtracking. -/
def tryAtCur (s : List Char) : Option (List Char × List Char × List Char) :=
  match scanNumber s with
  | none => none
  | some (num, r1) =>
    match scanCurrency (r1.dropWhile pyIsSpace) with
    | none => none
    | some (cur1, r3) =>
      match scanLitTo (r3.dropWhile pyIsSpace) with
      | none => none
      | some r5 =>
        match scanCurrency (r5.dropWhile pyIsSpace) with
        | none => none
        | some (cur2, _) => some (num, cur1, cur2)

/-- `re.search` of the currency pattern: try each start position, leftmost
first (the attempt at the empty suffix also runs, and fails). -/
def searchCurrency : List Char → Option (List Char × List Char × List Char)
  | [] => tryAtCur []
  | c :: cs =>
    match tryAtCur (c :: cs) with
    | some r => some r
    | none => searchCurrency cs

/-- main.py lines 109-115. -/
def symbol_to_code : List (String × String) :=
  [("$", "USD"), ("€", "EUR"), ("£", "GBP"), ("¥", "JPY"), ("₹", "INR")]

/-- `symbol_to_code.get(cur, cur.upper())`. -/
def resolveCode (s : List Char) : String :=
  match symbol_to_code.lookup (String.mk s) with
  | some code => code
  | none => String.mk (s.map Char.toUpper)

/-- Value of an ASCII digit string. -/
def digitsToNat (l : List Char) : ℕ :=
  l.foldl (fun n c => 10 * n + (c.toNat - 48)) 0

/-- Python `float()` on a string the numeral group matched
(`\d+`, optionally followed by `.` and more digits). -/
def parsePyFloat (s : List Char) : ℚ :=
  let ip := s.takeWhile Char.isDigit
  match s.drop ip.length with
  | '.' :: fp =>
    let fd := fp.takeWhile Char.isDigit
    (digitsToNat ip : ℚ) + (digitsToNat fd : ℚ) / (10 : ℚ) ^ fd.length
  | _ => (digitsToNat ip : ℚ)

/-- main.py lines 27-33, the static fallback exchange rates. -/
def FALLBACK_RATES : List (String × List (String × ℚ)) :=
  [("USD", [("INR", 83.50), ("EUR", 0.93), ("GBP", 0.80), ("JPY", 151.50)]),
   ("EUR", [("USD", 1.07), ("INR", 89.50), ("GBP", 0.86), ("JPY", 162.00)]),
   ("GBP", [("USD", 1.25), ("EUR", 1.16), ("INR", 104.50), ("JPY", 189.00)]),
   ("JPY", [("USD", 0.0066), ("EUR", 0.0062), ("GBP", 0.0053), ("INR", 0.55)]),
   ("INR", [("USD", 0.012), ("EUR", 0.011), ("GBP", 0.0096), ("JPY", 1.82)])]

/-- `from_curr in FALLBACK_RATES and to_curr in FALLBACK_RATES[from_curr]`,
with the rate that the lookup then reads. -/
def lookupRate (f t : String) : Option ℚ :=
  match FALLBACK_RATES.lookup f with
  | some m => m.lookup t
  | none => none

/-- Round half to even (the rounding of Python's `round`). -/
def halfEven (q : ℚ) : ℤ :=
  let f := ⌊q⌋
  let r := q - f
  if r < 1 / 2 then f
  else if 1 / 2 < r then f + 1
  else if f % 2 = 0 then f else f + 1

/-- `round(x, 2)` on the exact-rational model of floats. -/
def round2 (q : ℚ) : ℚ := (halfEven (q * 100) : ℚ) / 100

/-- Fractional digits of `r ∈ [0, 1)`, shortest form, with fuel. -/
def fracDigitsAux : ℕ → ℚ → String
  | 0, _ => ""
  | fuel + 1, r =>
    let d := ⌊r * 10⌋
    let rem := r * 10 - d
    toString d.toNat ++ (if rem = 0 then "" else fracDigitsAux fuel rem)

/-- Python `str` of a float value (shortest exact decimal; every value the
source renders is a rounded amount, so it has such a form). -/
def floatRepr (q : ℚ) : String :=
  let sgn := if q < 0 then "-" else ""
  let a := if q < 0 then -q else q
  let ip := ⌊a⌋
  let fr := a - ip
  sgn ++ toString ip.toNat ++ "." ++ (if fr = 0 then "0" else fracDigitsAux 30 fr)

/-- Body of `convert_currency` after the normalization step: pattern search,
symbol resolution, live lookup, fallback table (main.py lines 100-140). -/
def convertScan (live : String → String → ℚ → Option ℚ) (l : List Char) :
    Option String :=
  match searchCurrency l with
  | none => none
  | some (num, f, t) =>
    let amount := parsePyFloat num
    let from_curr := resolveCode f
    let to_curr := resolveCode t
    match live from_curr to_curr amount with
    | some conv =>
      some (floatRepr amount ++ " " ++ from_curr ++ " = " ++
        floatRepr (round2 conv) ++ " " ++ to_curr ++ " (live rate)")
    | none =>
      match lookupRate from_curr to_curr with
      | some rate =>
        some (floatRepr amount ++ " " ++ from_curr ++ " ≈ " ++
          floatRepr (round2 (amount * rate)) ++ " " ++ to_curr ++
          " (approximate rate)")
      | none =>
        some ("Currency conversion not available for " ++ from_curr ++
          " to " ++ to_curr)

/-- main.py lines 90-140.  `live` is the external `c.convert`; `none` is its
exception path (network error, unsupported pair, timeout).  The outer
`try/except` of the source can only be entered through `c.convert`, whose
exception the inner handler already catches (`float` cannot fail on a string
the numeral group matched), so the `return None` of the outer handler is
unreachable and the function returns `none` exactly when the pattern does not
match. -/
def convert_currency (live : String → String → ℚ → Option ℚ) (text : String) :
    Option String :=
  convertScan live (normalizeCurrencyL text.data)

/-- A live-rate source whose every call fails (raises). -/
def liveFail : String → String → ℚ → Option ℚ := fun _ _ _ => none

/-- A numeral the group `\d+\.?\d*` matches in full: digits, optionally
followed by a dot and more digits. -/
def ValidNumL (n : List Char) : Prop :=
  ∃ d1 d2 : List Char, d1 ≠ [] ∧ (∀ c ∈ d1, c.isDigit = true) ∧
    (∀ c ∈ d2, c.isDigit = true) ∧ (n = d1 ∨ n = d1 ++ '.' :: d2)

/-- The surface forms a conversion request can name a fallback-table currency
by, paired with the code they resolve to: the five symbols of
`symbol_to_code` and the five table codes themselves. -/
def currencyForms : List (String × String) :=
  [("$", "USD"), ("€", "EUR"), ("£", "GBP"), ("¥", "JPY"), ("₹", "INR"),
   ("USD", "USD"), ("EUR", "EUR"), ("GBP", "GBP"), ("JPY", "JPY"), ("INR", "INR")]

/-! ## Physics Equation Matcher (`analyze_physics_equation`, main.py 142-170) -/

/-- One token of a physics pattern: a literal character, or the `\s*` the
source writes between symbols. -/
inductive Tok where
  | ch (c : Char)
  | ws
deriving DecidableEq

/-- Builds a pattern from a template in which a blank stands for `\s*` and
every other character for an escaped literal. -/
def mkPat (s : String) : List Tok :=
  s.data.map (fun c => if c = ' ' then Tok.ws else Tok.ch c)

/-- main.py lines 148-160: the fixed equation library, in source order.
Each regex is a sequence of literal characters with `\s*` between symbols,
transcribed by `mkPat` (for example `F\s*=\s*m\s*a` is `mkPat "F = m a"`). -/
def physics_patterns : List (List Tok × String) :=
  [(mkPat "F = m a", "Newton\x27s Second Law of Motion (Force = mass × acceleration)"),
   (mkPat "E = m c^2", "Einstein\x27s Mass-Energy Equivalence"),
   (mkPat "v = u + a t", "Kinematic Equation (Final velocity = initial velocity + acceleration × time)"),
   (mkPat "s = u t + 0.5 a t^2", "Kinematic Equation (Displacement = initial velocity × time + 0.5 × acceleration × time²)"),
   (mkPat "P = V I", "Electric Power (Power = Voltage × Current)"),
   (mkPat "V = I R", "Ohm\x27s Law (Voltage = Current × Resistance)"),
   (mkPat "a = v^2 / r", "Centripetal Acceleration"),
   (mkPat "F = G m1 m2 / r^2", "Newton\x27s Law of Universal Gravitation"),
   (mkPat "K.E. = 0.5 m v^2", "Kinetic Energy"),
   (mkPat "P.E. = m g h", "Gravitational Potential Energy"),
   (mkPat "λ = v / f", "Wave Equation (Wavelength = velocity / frequency)")]

/-- `re.fullmatch` of a pattern, case-insensitively: a literal token consumes
one matching character, a `\s*` token consumes any run of whitespace
(greedily or not: the disjunction tries both, which is exactly the
backtracking search), and the whole input must be consumed.  The fuel (the
total length plus one, which every recursive call respects, since each call
shrinks pattern plus input by at least one) keeps the recursion structural. -/
def fullmatchAux : ℕ → List Tok → List Char → Bool
  | 0, _, _ => false
  | _ + 1, [], [] => true
  | _ + 1, [], _ :: _ => false
  | _ + 1, Tok.ch _ :: _, [] => false
  | fuel + 1, Tok.ch p :: ps, c :: cs =>
    (pyLower p == pyLower c) && fullmatchAux fuel ps cs
  | fuel + 1, Tok.ws :: ps, s =>
    fullmatchAux fuel ps s ||
      (match s with
       | c :: cs => pyIsSpace c && fullmatchAux fuel (Tok.ws :: ps) cs
       | [] => false)

/-- `re.fullmatch(pattern, s, re.IGNORECASE)` as a boolean. -/
def fullmatchP (ps : List Tok) (s : List Char) : Bool :=
  fullmatchAux (ps.length + s.length + 1) ps s

/-- `re.sub(r"\s+", "", text)`: remove all whitespace. -/
def stripWs (l : List Char) : List Char := l.filter (fun c => !pyIsSpace c)

/-- main.py lines 142-170: strip whitespace, then return the description of
the first pattern in the library that fully matches (the `for` loop with an
early `return` is `find?` followed by taking the description). -/
def analyze_physics_equation (t : String) : Option String :=
  (physics_patterns.find? (fun pd => fullmatchP pd.1 (stripWs t.data))).map
    (fun pd => pd.2)

/-! ## Math Expression Formatter (`format_math_expression`, main.py 47-88) -/

/-- main.py line 56: `text.replace("$", "").replace("\\dfrac", "\\frac")`. -/
def preprocessMath (l : List Char) : List Char :=
  replaceList ['\\', 'd', 'f', 'r', 'a', 'c'] ['\\', 'f', 'r', 'a', 'c']
    (replaceList ['$'] [] l)

/-- One attempt of `\\boxed\{([^}]+)\}` at the head of `s`: the literal
`\boxed{`, then a non-empty greedy run of non-`}` characters, then `}`.
If the run reaches the end of the input without a closing brace, no shorter
run can help (all its characters are non-`}`), so the attempt fails. -/
def boxedAt (s : List Char) : Option (List Char) :=
  if startsWith ['\\', 'b', 'o', 'x', 'e', 'd', '\x7b'] s then
    let r := s.drop 7
    let g := r.takeWhile (fun c => c ≠ '\x7d')
    if g.isEmpty then none
    else
      match r.drop g.length with
      | '\x7d' :: _ => some g
      | _ => none
  else none

/-- `re.search` of the boxed pattern: leftmost position first. -/
def boxedSearch : List Char → Option (List Char)
  | [] => boxedAt []
  | c :: cs =>
    match boxedAt (c :: cs) with
    | some g => some g
    | none => boxedSearch cs

/-- The character class `[\s:is]` under `re.IGNORECASE`: whitespace, colon,
and the letters i and s in either case. -/
def inClass (c : Char) : Bool :=
  pyIsSpace c || c = ':' || c = 'i' || c = 's' || c = 'I' || c = 'S'

/-- One position for the group `([^\n]+)` after the class run: the character
there must exist and not be a newline; the greedy group then runs to the
next newline or the end. -/
def grpAttempt (rest : List Char) (k : ℕ) : Option (List Char) :=
  match rest.drop k with
  | c :: cs => if c = '\n' then none else some ((c :: cs).takeWhile (fun x => x ≠ '\n'))
  | [] => none

/-- Backtracking of the greedy `[\s:is]*`: try the longest class run first,
then shorter ones down to the empty run. -/
def grpFind (rest : List Char) : ℕ → Option (List Char)
  | 0 => grpAttempt rest 0
  | k + 1 =>
    match grpAttempt rest (k + 1) with
    | some g => some g
    | none => grpFind rest k

/-- `[\s:is]*([^\n]+)` at the head of `rest`: greedy class run with
backtracking, then the group. -/
def grp (rest : List Char) : Option (List Char) :=
  grpFind rest (rest.takeWhile inClass).length

/-- One attempt of `(?:answer|result|solution)[\s:is]*([^\n]+)` (IGNORECASE)
at the head of `s`: the alternation tries the keywords in source order; when
a keyword matches but the rest of the pattern fails, the next alternative is
tried at the same position. -/
def ansAt (s : List Char) : Option (List Char) :=
  match (if startsWithCI ['a', 'n', 's', 'w', 'e', 'r'] s then grp (s.drop 6) else none) with
  | some g => some g
  | none =>
    match (if startsWithCI ['r', 'e', 's', 'u', 'l', 't'] s then grp (s.drop 6) else none) with
    | some g => some g
    | none =>
      if startsWithCI ['s', 'o', 'l', 'u', 't', 'i', 'o', 'n'] s then grp (s.drop 8)
      else none

/-- `re.search` of the labeled-answer pattern: leftmost position first. -/
def searchAnswer : List Char → Option (List Char)
  | [] => ansAt []
  | c :: cs =>
    match ansAt (c :: cs) with
    | some g => some g
    | none => searchAnswer cs

/-- main.py line 70: `re.sub(r"[\\{}]", "", answer)`. -/
def stripFmt (l : List Char) : List Char :=
  l.filter (fun c => !(c = '\\' || c = '\x7b' || c = '\x7d'))

/-- main.py line 76: `re.sub(r"[^\d\+\-\*\/\(\)\.]", "", text)` keeps only
digits and `+ - * / ( ) .`. -/
def cleanExpr (l : List Char) : List Char :=
  l.filter (fun c => c.isDigit || c = '+' || c = '-' || c = '*' || c = '/' ||
    c = '(' || c = ')' || c = '.')

/-- A Python value the sanitized arithmetic can produce: an `int` or a
`float` (idealized as an exact rational). -/
inductive PyVal where
  | int (n : ℤ)
  | float (q : ℚ)
deriving DecidableEq

/-- Numeric value of a `PyVal`. -/
def toQ : PyVal → ℚ
  | .int n => n
  | .float q => q

/-- Python `+`: int with int stays int, otherwise float. -/
def addV : PyVal → PyVal → PyVal
  | .int a, .int b => .int (a + b)
  | a, b => .float (toQ a + toQ b)

/-- Python binary `-`. -/
def subV : PyVal → PyVal → PyVal
  | .int a, .int b => .int (a - b)
  | a, b => .float (toQ a - toQ b)

/-- Python `*`. -/
def mulV : PyVal → PyVal → PyVal
  | .int a, .int b => .int (a * b)
  | a, b => .float (toQ a * toQ b)

/-- Python unary `-`. -/
def negV : PyVal → PyVal
  | .int n => .int (-n)
  | .float q => .float (-q)

/-- Python `/`: always float; zero divisor raises. -/
def divV (a b : PyVal) : Option PyVal :=
  if toQ b = 0 then none else some (.float (toQ a / toQ b))

/-- Python `//`: floor division; zero divisor raises. -/
def floordivV (a b : PyVal) : Option PyVal :=
  if toQ b = 0 then none
  else
    match a, b with
    | .int x, .int y => some (.int (Int.fdiv x y))
    | _, _ => some (.float ((⌊toQ a / toQ b⌋ : ℤ) : ℚ))

/-- Python `**` with an integer exponent (int base with non-negative
exponent stays int; a negative exponent gives a float; `0` to a negative
power raises). -/
def powInt (a : PyVal) (e : ℤ) : Option PyVal :=
  if 0 ≤ e then
    some (match a with
      | .int n => .int (n ^ e.toNat)
      | .float q => .float (q ^ e.toNat))
  else if toQ a = 0 then none
  else some (.float (1 / toQ a ^ (-e).toNat))

/-- Python `**`.  A fractional exponent would be a real power, which the
rational model cannot express; it is modelled as failure (no claim below
evaluates one). -/
def powV (a b : PyVal) : Option PyVal :=
  match b with
  | .int e => powInt a e
  | .float q => if q.den = 1 then powInt a q.num else none

/-- A Python numeric literal over digits and `.`: an integer (whose decimal
form must not have a superfluous leading zero) or a float (`5.`, `.5`,
`3.25`; leading zeros allowed). -/
def numLit (s : List Char) : Option (PyVal × List Char) :=
  let ds := s.takeWhile Char.isDigit
  match s.drop ds.length with
  | '.' :: r2 =>
    let fs := r2.takeWhile Char.isDigit
    if ds.isEmpty && fs.isEmpty then none
    else some (.float ((digitsToNat ds : ℚ) + (digitsToNat fs : ℚ) / (10 : ℚ) ^ fs.length),
      r2.drop fs.length)
  | _ =>
    if ds.isEmpty then none
    else if ds.headD '0' = '0' && !ds.all (fun c => c = '0') then none
    else some (.int (digitsToNat ds), s.drop ds.length)

mutual

/-- Python expression: term (`+`/`-` term)*. -/
def parseExpr : ℕ → List Char → Option (PyVal × List Char)
  | 0, _ => none
  | f + 1, s =>
    match parseTerm f s with
    | none => none
    | some (a, r) => exprLoop f a r

/-- The loop of `+` or `-` terms. -/
def exprLoop : ℕ → PyVal → List Char → Option (PyVal × List Char)
  | 0, _, _ => none
  | f + 1, a, s =>
    match s with
    | '+' :: r =>
      (match parseTerm f r with
       | none => none
       | some (b, r2) => exprLoop f (addV a b) r2)
    | '-' :: r =>
      (match parseTerm f r with
       | none => none
       | some (b, r2) => exprLoop f (subV a b) r2)
    | _ => some (a, s)

/-- Python term: factor (`*`/`/`/`//` factor)*. -/
def parseTerm : ℕ → List Char → Option (PyVal × List Char)
  | 0, _ => none
  | f + 1, s =>
    match parseUnary f s with
    | none => none
    | some (a, r) => termLoop f a r

/-- The `(*, /, // factor)*` loop. -/
def termLoop : ℕ → PyVal → List Char → Option (PyVal × List Char)
  | 0, _, _ => none
  | f + 1, a, s =>
    match s with
    | '/' :: '/' :: r =>
      (match parseUnary f r with
       | none => none
       | some (b, r2) =>
         match floordivV a b with
         | none => none
         | some v => termLoop f v r2)
    | '/' :: r =>
      (match parseUnary f r with
       | none => none
       | some (b, r2) =>
         match divV a b with
         | none => none
         | some v => termLoop f v r2)
    | '*' :: r =>
      (match parseUnary f r with
       | none => none
       | some (b, r2) => termLoop f (mulV a b) r2)
    | _ => some (a, s)

/-- Python unary expression: `+`/`-` prefixes over a power. -/
def parseUnary : ℕ → List Char → Option (PyVal × List Char)
  | 0, _ => none
  | f + 1, s =>
    match s with
    | '+' :: r =>
      (match parseUnary f r with
       | none => none
       | some (v, r2) => some (v, r2))
    | '-' :: r =>
      (match parseUnary f r with
       | none => none
       | some (v, r2) => some (negV v, r2))
    | _ => parsePow f s

/-- Python power: atom, optionally `**` with a unary exponent
(right-associative, binding above unary minus on the left). -/
def parsePow : ℕ → List Char → Option (PyVal × List Char)
  | 0, _ => none
  | f + 1, s =>
    match parseAtom f s with
    | none => none
    | some (a, r) =>
      match r with
      | '*' :: '*' :: r2 =>
        (match parseUnary f r2 with
         | none => none
         | some (b, r3) =>
           match powV a b with
           | none => none
           | some v => some (v, r3))
      | _ => some (a, r)

/-- Python atom over this character set: a parenthesized expression or a
numeric literal. -/
def parseAtom : ℕ → List Char → Option (PyVal × List Char)
  | 0, _ => none
  | f + 1, s =>
    match s with
    | '(' :: r =>
      (match parseExpr f r with
       | none => none
       | some (v, r2) =>
         match r2 with
         | ')' :: r3 => some (v, r3)
         | _ => none)
    | _ => numLit s

end

/-- Python `eval` restricted to the sanitized arithmetic character set (see
the header: constructs beyond arithmetic, and real-valued powers, are
modelled as failure).  The whole string must parse; the fuel is generous
(each grammar level consumes one unit and there are five levels). -/
def pyEval (s : List Char) : Option PyVal :=
  match parseExpr (8 * s.length + 16) s with
  | some (v, []) => some v
  | _ => none

/-- The convergent loop of CPython's `Fraction.limit_denominator`: walks the
continued fraction of `n/d` while the next convergent's denominator stays
within the bound.  Fuel-based (the denominator strictly decreases, so the
initial denominator bounds the steps). -/
def limitDenLoop (maxd : ℕ) : ℕ → ℤ → ℤ → ℤ → ℤ → ℤ → ℤ → ℤ × ℤ × ℤ × ℤ
  | 0, p0, q0, p1, q1, _, _ => (p0, q0, p1, q1)
  | fuel + 1, p0, q0, p1, q1, n, d =>
    if d = 0 then (p0, q0, p1, q1)
    else
      let a := Int.fdiv n d
      let q2 := q0 + a * q1
      if q2 > (maxd : ℤ) then (p0, q0, p1, q1)
      else limitDenLoop maxd fuel p1 q1 (p0 + a * p1) q2 d (n - a * d)

/-- `Fraction.limit_denominator(max_denominator)` of CPython's `fractions`:
the fraction itself when its denominator is within the bound, else the
closest fraction with a bounded denominator, via continued-fraction bounds. -/
def limitDenominator (q : ℚ) (maxd : ℕ) : ℚ :=
  if q.den ≤ maxd then q
  else
    match limitDenLoop maxd (q.den + 2) 0 1 1 0 q.num (q.den : ℤ) with
    | (p0, q0, p1, q1) =>
      let k := Int.fdiv ((maxd : ℤ) - q0) q1
      let bound1 : ℚ := (p0 + k * p1 : ℚ) / (q0 + k * q1 : ℚ)
      let bound2 : ℚ := (p1 : ℚ) / (q1 : ℚ)
      if |bound2 - q| ≤ |bound1 - q| then bound2 else bound1

/-- Python `str` of a `Fraction`: `n/d`, or just `n` when the denominator
is 1 (Lean's `ℚ` is normalized with a positive denominator, as `Fraction`). -/
def fracStr (q : ℚ) : String :=
  if q.den = 1 then toString q.num
  else toString q.num ++ "/" ++ toString q.den

/-- main.py lines 78-83: a float that is not a whole number is rendered as
`str(Fraction(result).limit_denominator())`; anything else as `str(result)`
(an int, or a whole-number float, which `str` shows with a trailing `.0`). -/
def renderEvalResult : PyVal → String
  | .int n => toString n
  | .float q =>
    if q.den ≠ 1 then fracStr (limitDenominator q 1000000)
    else toString q.num ++ ".0"

/-- main.py lines 73-85, the third strategy: sanitize, evaluate only if the
sanitized string is non-empty, and catch any exception (`none`). -/
def directEval (text : List Char) : Option String :=
  match (if (cleanExpr text).isEmpty then none else pyEval (cleanExpr text)) with
  | some v => some (renderEvalResult v)
  | none => none

/-- main.py lines 47-88.  The three strategies in order, then the trimmed
(preprocessed) text. -/
def format_math_expression (t : String) : String :=
  match boxedSearch (preprocessMath t.data) with
  | some g => String.mk (pyStrip g)
  | none =>
    match searchAnswer (preprocessMath t.data) with
    | some g => String.mk (stripFmt (pyStrip g))
    | none =>
      match directEval (preprocessMath t.data) with
      | some r => r
      | none => String.mk (pyStrip (preprocessMath t.data))

/-- The keyword search of claim C6 read literally from the spec's words:
the first occurrence of "answer", "result" or "solution"
(case-insensitive), returning the text after the keyword. -/
def claimAnsAt (s : List Char) : Option (List Char) :=
  if startsWithCI ['a', 'n', 's', 'w', 'e', 'r'] s then some (s.drop 6)
  else if startsWithCI ['r', 'e', 's', 'u', 'l', 't'] s then some (s.drop 6)
  else if startsWithCI ['s', 'o', 'l', 'u', 't', 'i', 'o', 'n'] s then some (s.drop 8)
  else none

/-- Leftmost keyword occurrence for `labeledAnswerClaimC6`. -/
def claimSearch : List Char → Option (List Char)
  | [] => claimAnsAt []
  | c :: cs =>
    match claimAnsAt (c :: cs) with
    | some r => some r
    | none => claimSearch cs

/-- Modelled from the spec's words of claim C6 (the extraction rule the
claim asserts, to compare with the code's): find the first occurrence of
the keyword, skip optional colon/whitespace (within the line), and return
the remainder of that line with brace/backslash characters stripped (and
trimmed, as the claim's own example output shows). -/
def labeledAnswerClaimC6 (t : String) : Option String :=
  match claimSearch t.data with
  | some rest =>
    some (String.mk (pyStrip (stripFmt
      ((rest.dropWhile (fun c => c = ':' || (pyIsSpace c && c ≠ '\n'))).takeWhile
        (fun c => c ≠ '\n')))))
  | none => none

/-! ## Response pipeline (`analyze_image`, main.py 172-229) -/

/-- main.py lines 217-223: the math stage returns the formatted text only
when formatting changed it. -/
def mathStage (raw : String) : String :=
  if format_math_expression raw ≠ raw then format_math_expression raw else raw

/-- main.py lines 212-215: the physics stage (with Python truthiness on the
returned description). -/
def physStage (raw : String) : String :=
  match analyze_physics_equation raw with
  | some p => if p ≠ "" then "Physics Equation: " ++ p else mathStage raw
  | none => mathStage raw

/-- main.py lines 207-223: the fixed priority chain on the raw model text
(each `if <result>:` is Python truthiness: `None` and `""` are falsy). -/
def classify_and_format (live : String → String → ℚ → Option ℚ)
    (raw : String) : String :=
  match convert_currency live raw with
  | some c => if c ≠ "" then c else physStage raw
  | none => physStage raw

/-- The structured body `analyze_image` answers with: a value under the
`result` key, or one under the `error` key. -/
inductive ApiResponse where
  | result (s : String)
  | error (s : String)
deriving DecidableEq

/-- What the inference call does: raise an exception, return a falsy
response (`none`), or return a response whose text is `t` (`""` falsy). -/
inductive GatewayReply where
  | raises (msg : String)
  | reply (text : Option String)

/-- main.py lines 172-229: the endpoint after a successfully decoded image.
An exception from the gateway propagates to the outer handler and becomes
an `error` response; a falsy response or falsy text becomes the
`"No response from AI"` result; otherwise the stripped text goes through
the pipeline. -/
def analyze_image (live : String → String → ℚ → Option ℚ)
    (r : GatewayReply) : ApiResponse :=
  match r with
  | .raises m => .error m
  | .reply none => .result "No response from AI"
  | .reply (some t) =>
    if t ≠ "" then .result (classify_and_format live (String.mk (pyStrip t.data)))
    else .result "No response from AI"

/-! ## Lemmas and claims -/

/-- Unfolds a `String` append to the underlying lists. -/
theorem strData_append (a b : String) : (a ++ b).data = a.data ++ b.data := rfl

theorem takeWhile_all_append (p : Char → Bool) (l1 : List Char) (c : Char)
    (l2 : List Char) (h1 : ∀ a ∈ l1, p a = true) (h2 : p c = false) :
    (l1 ++ c :: l2).takeWhile p = l1 := by
  induction l1 with
  | nil => simp [List.takeWhile_cons, h2]
  | cons a as ih =>
    have ha : p a = true := h1 a (by simp)
    simp only [List.cons_append, List.takeWhile_cons, ha, if_true]
    rw [ih (fun x hx => h1 x (by simp [hx]))]

theorem replaceListAux_id (p : Char) (ps rep : List Char) (fuel : ℕ)
    (s : List Char) (h : ∀ c ∈ s, c ≠ p) :
    replaceListAux (p :: ps) rep fuel s = s := by
  induction fuel generalizing s with
  | zero => cases s <;> rfl
  | succ f ih =>
    cases s with
    | nil => rfl
    | cons c cs =>
      have hca : (p == c) = false :=
        beq_eq_false_iff_ne.mpr (fun hh => h c (by simp) hh.symm)
      simp only [replaceListAux, startsWith, hca, Bool.false_and,
        Bool.false_eq_true, if_false]
      rw [ih cs (fun x hx => h x (by simp [hx]))]

theorem replaceList_id (p : Char) (ps rep : List Char) (s : List Char)
    (h : ∀ c ∈ s, c ≠ p) : replaceList (p :: ps) rep s = s :=
  replaceListAux_id p ps rep s.length s h

theorem normalizeCurrencyL_id (l : List Char)
    (h : ∀ c ∈ l, c ≠ '-' ∧ c ≠ 'i') : normalizeCurrencyL l = l := by
  unfold normalizeCurrencyL
  rw [replaceList_id _ _ _ _ (fun c hc => (h c hc).1),
    replaceList_id _ _ _ _ (fun c hc => (h c hc).2)]

theorem scanNumber_valid (n rest : List Char) (h : ValidNumL n) :
    scanNumber (n ++ ' ' :: rest) = some (n, ' ' :: rest) := by
  obtain ⟨d1, d2, hne, hd1, hd2, hform⟩ := h
  have hsp : Char.isDigit ' ' = false := rfl
  have hdot : Char.isDigit '.' = false := rfl
  have hie : d1.isEmpty = false := by
    cases d1 with
    | nil => exact absurd rfl hne
    | cons a as => rfl
  rcases hform with hform | hform <;> subst hform
  · simp only [scanNumber, takeWhile_all_append _ _ _ _ hd1 hsp]
    rw [List.drop_left]
    simp only [hie, Bool.false_eq_true, if_false]
    rfl
  · have assoc : (d1 ++ '.' :: d2) ++ ' ' :: rest = d1 ++ '.' :: (d2 ++ ' ' :: rest) := by
      simp
    rw [assoc]
    simp only [scanNumber, takeWhile_all_append _ _ _ _ hd1 hdot]
    rw [List.drop_left]
    simp only [hie, Bool.false_eq_true, if_false]
    rw [takeWhile_all_append _ _ _ _ hd2 hsp, List.drop_left]

theorem tryAtCur_valid (num s1 s2 : List Char) (hnum : ValidNumL num)
    (hs1 : ∀ rest, scanCurrency (s1 ++ rest) = some (s1, rest))
    (hs2 : ∀ rest, scanCurrency (s2 ++ rest) = some (s2, rest))
    (h1 : ∃ c cs, s1 = c :: cs ∧ pyIsSpace c = false)
    (h2 : ∃ c cs, s2 = c :: cs ∧ pyIsSpace c = false) :
    tryAtCur (num ++ ' ' :: (s1 ++ (' ' :: 't' :: 'o' :: ' ' :: s2))) =
      some (num, s1, s2) := by
  obtain ⟨c1, cs1, he1, hw1⟩ := h1
  obtain ⟨c2, cs2, he2, hw2⟩ := h2
  simp only [tryAtCur]
  rw [scanNumber_valid _ _ hnum]
  dsimp only []
  rw [show List.dropWhile pyIsSpace (' ' :: (s1 ++ (' ' :: 't' :: 'o' :: ' ' :: s2)))
      = s1 ++ (' ' :: 't' :: 'o' :: ' ' :: s2) from by
    rw [List.dropWhile_cons]
    simp only [show pyIsSpace ' ' = true from rfl, if_true]
    rw [he1, List.cons_append, List.dropWhile_cons]
    simp [hw1]]
  rw [hs1]
  dsimp only []
  rw [show List.dropWhile pyIsSpace (' ' :: 't' :: 'o' :: ' ' :: s2)
      = 't' :: 'o' :: ' ' :: s2 from by
    rw [List.dropWhile_cons]
    simp only [show pyIsSpace ' ' = true from rfl, if_true]
    rw [List.dropWhile_cons]
    simp [show pyIsSpace 't' = false from rfl]]
  rw [show scanLitTo ('t' :: 'o' :: ' ' :: s2) = some (' ' :: s2) from rfl]
  dsimp only []
  rw [show List.dropWhile pyIsSpace (' ' :: s2) = s2 from by
    rw [List.dropWhile_cons]
    simp only [show pyIsSpace ' ' = true from rfl, if_true]
    rw [he2, List.dropWhile_cons]
    simp [hw2]]
  rw [show scanCurrency s2 = some (s2, []) from by
    have := hs2 []
    rwa [List.append_nil] at this]

theorem searchCurrency_of_tryAt (s : List Char) (r : List Char × List Char × List Char)
    (h : tryAtCur s = some r) : searchCurrency s = some r := by
  cases s with
  | nil => simp only [searchCurrency]; exact h
  | cons c cs => simp only [searchCurrency]; rw [h]

theorem convertScan_none (live : String → String → ℚ → Option ℚ)
    (l : List Char) (h : searchCurrency l = none) : convertScan live l = none := by
  simp only [convertScan]
  rw [h]

theorem convertScan_live (live : String → String → ℚ → Option ℚ)
    (l num f t : List Char) (conv : ℚ)
    (hs : searchCurrency l = some (num, f, t))
    (hl : live (resolveCode f) (resolveCode t) (parsePyFloat num) = some conv) :
    convertScan live l =
      some (floatRepr (parsePyFloat num) ++ " " ++ resolveCode f ++ " = " ++
        floatRepr (round2 conv) ++ " " ++ resolveCode t ++ " (live rate)") := by
  simp only [convertScan]
  rw [hs]
  dsimp only []
  rw [hl]

theorem convertScan_fallback (live : String → String → ℚ → Option ℚ)
    (l num f t : List Char) (rate : ℚ)
    (hs : searchCurrency l = some (num, f, t))
    (hl : live (resolveCode f) (resolveCode t) (parsePyFloat num) = none)
    (hr : lookupRate (resolveCode f) (resolveCode t) = some rate) :
    convertScan live l =
      some (floatRepr (parsePyFloat num) ++ " " ++ resolveCode f ++ " ≈ " ++
        floatRepr (round2 (parsePyFloat num * rate)) ++ " " ++ resolveCode t ++
        " (approximate rate)") := by
  simp only [convertScan]
  rw [hs]
  dsimp only []
  rw [hl]
  dsimp only []
  rw [hr]

theorem convertScan_unavail (live : String → String → ℚ → Option ℚ)
    (l num f t : List Char)
    (hs : searchCurrency l = some (num, f, t))
    (hl : live (resolveCode f) (resolveCode t) (parsePyFloat num) = none)
    (hr : lookupRate (resolveCode f) (resolveCode t) = none) :
    convertScan live l =
      some ("Currency conversion not available for " ++ resolveCode f ++
        " to " ++ resolveCode t) := by
  simp only [convertScan]
  rw [hs]
  dsimp only []
  rw [hl]
  dsimp only []
  rw [hr]

theorem validNum_chars (n : List Char) (h : ValidNumL n) :
    ∀ c ∈ n, c.isDigit = true ∨ c = '.' := by
  obtain ⟨d1, d2, _, hd1, hd2, hform⟩ := h
  rcases hform with hform | hform <;> subst hform
  · exact fun c hc => Or.inl (hd1 c hc)
  · intro c hc
    rcases List.mem_append.mp hc with hc | hc
    · exact Or.inl (hd1 c hc)
    · rcases List.mem_cons.mp hc with hc | hc
      · exact Or.inr hc
      · exact Or.inl (hd2 c hc)

theorem digit_not_dash_i (c : Char) (h : c.isDigit = true) : c ≠ '-' ∧ c ≠ 'i' :=
  ⟨fun e => by subst e; exact absurd h (by decide),
   fun e => by subst e; exact absurd h (by decide)⟩

/-- The currency fallback path of `convert_currency` on a well-formed request
`"<amount> <from> to <to>"`: the output contains the product
`amount * rate` rounded to two decimals, in the source's format string. -/
theorem convert_fallback_core
    (live : String → String → ℚ → Option ℚ) (numS s1 s2 : String) (rate : ℚ)
    (hnum : ValidNumL numS.data)
    (hs1 : ∀ rest, scanCurrency (s1.data ++ rest) = some (s1.data, rest))
    (hs2 : ∀ rest, scanCurrency (s2.data ++ rest) = some (s2.data, rest))
    (hne1 : s1.data ≠ []) (hne2 : s2.data ≠ [])
    (hc1 : ∀ c ∈ s1.data, pyIsSpace c = false ∧ c ≠ '-' ∧ c ≠ 'i')
    (hc2 : ∀ c ∈ s2.data, pyIsSpace c = false ∧ c ≠ '-' ∧ c ≠ 'i')
    (hl : live (resolveCode s1.data) (resolveCode s2.data)
      (parsePyFloat numS.data) = none)
    (hr : lookupRate (resolveCode s1.data) (resolveCode s2.data) = some rate) :
    convert_currency live (numS ++ " " ++ s1 ++ " to " ++ s2) =
      some (floatRepr (parsePyFloat numS.data) ++ " " ++ resolveCode s1.data ++
        " ≈ " ++ floatRepr (round2 (parsePyFloat numS.data * rate)) ++ " " ++
        resolveCode s2.data ++ " (approximate rate)") := by
  have hdata : (numS ++ " " ++ s1 ++ " to " ++ s2).data =
      numS.data ++ ' ' :: (s1.data ++ (' ' :: 't' :: 'o' :: ' ' :: s2.data)) := by
    simp only [strData_append]
    simp [String.data]
  have hchars : ∀ c ∈ numS.data ++ ' ' :: (s1.data ++ (' ' :: 't' :: 'o' :: ' ' :: s2.data)),
      c ≠ '-' ∧ c ≠ 'i' := by
    intro c hc
    rcases List.mem_append.mp hc with hc | hc
    · rcases validNum_chars _ hnum c hc with hd | hd
      · exact digit_not_dash_i c hd
      · subst hd; exact ⟨by decide, by decide⟩
    · rcases List.mem_cons.mp hc with rfl | hc
      · exact ⟨by decide, by decide⟩
      rcases List.mem_append.mp hc with hc | hc
      · exact (hc1 c hc).2
      · rcases List.mem_cons.mp hc with rfl | hc
        · exact ⟨by decide, by decide⟩
        rcases List.mem_cons.mp hc with rfl | hc
        · exact ⟨by decide, by decide⟩
        rcases List.mem_cons.mp hc with rfl | hc
        · exact ⟨by decide, by decide⟩
        rcases List.mem_cons.mp hc with rfl | hc
        · exact ⟨by decide, by decide⟩
        · exact (hc2 c hc).2
  have h1 : ∃ c cs, s1.data = c :: cs ∧ pyIsSpace c = false := by
    cases he : s1.data with
    | nil => exact absurd he hne1
    | cons c cs => exact ⟨c, cs, rfl, (hc1 c (by rw [he]; simp)).1⟩
  have h2 : ∃ c cs, s2.data = c :: cs ∧ pyIsSpace c = false := by
    cases he : s2.data with
    | nil => exact absurd he hne2
    | cons c cs => exact ⟨c, cs, rfl, (hc2 c (by rw [he]; simp)).1⟩
  unfold convert_currency
  rw [hdata, normalizeCurrencyL_id _ hchars]
  exact convertScan_fallback live _ _ _ _ rate
    (searchCurrency_of_tryAt _ _ (tryAtCur_valid _ _ _ hnum hs1 hs2 h1 h2)) hl hr

/-- Claim C3: for every (from, to) pair present in the fallback table and
every non-negative amount (every numeral `\d+\.?\d*`; such amounts are
exactly the non-negative ones the pattern admits), when the live lookup
fails, `convert_currency` on `"<amount> <from> to <to>"` returns the string
`"<amount> <FROM> ≈ <amount * rate, rounded to 2 decimals> <TO>
(approximate rate)"`. -/
theorem c3_fallback_conversion
    (live : String → String → ℚ → Option ℚ) (numS s1 s2 c1 c2 : String)
    (rate : ℚ) (hnum : ValidNumL numS.data)
    (h1 : (s1, c1) ∈ currencyForms) (h2 : (s2, c2) ∈ currencyForms)
    (hrate : lookupRate c1 c2 = some rate)
    (hlive : live c1 c2 (parsePyFloat numS.data) = none) :
    convert_currency live (numS ++ " " ++ s1 ++ " to " ++ s2) =
      some (floatRepr (parsePyFloat numS.data) ++ " " ++ c1 ++ " ≈ " ++
        floatRepr (round2 (parsePyFloat numS.data * rate)) ++ " " ++ c2 ++
        " (approximate rate)") := by
  fin_cases h1 <;> fin_cases h2 <;>
    first
      | exact Option.noConfusion
          ((by with_unfolding_all decide : lookupRate _ _ = none).symm.trans hrate)
      | exact convert_fallback_core live numS _ _ rate hnum
          (fun rest => rfl) (fun rest => rfl) (by decide) (by decide)
          (by decide) (by decide) hlive hrate

/-- Witness for C3: 5 dollars to rupees, live source failing, through the
fallback table (5 * 83.50 = 417.5). -/
theorem c3_fallback_conversion_witness :
    convert_currency liveFail "5 $ to ₹" =
      some "5.0 USD ≈ 417.5 INR (approximate rate)" := by
  have h := c3_fallback_conversion liveFail "5" "$" "₹" "USD" "INR" 83.50
    ⟨['5'], [], by decide, by decide, by decide, Or.inl rfl⟩
    (by decide) (by decide) (by with_unfolding_all decide) rfl
  have e1 : floatRepr (parsePyFloat "5".data) = "5.0" := by
    with_unfolding_all decide
  have e2 : floatRepr (round2 (parsePyFloat "5".data * 83.50)) = "417.5" := by
    with_unfolding_all decide
  rw [e1, e2] at h
  exact h.trans (by decide)

/-- Claim C7: when a conversion request is detected but the (from, to) pair
is absent from both the live source and the fallback table,
`convert_currency` returns the descriptive unavailability string (a `some`,
never `none`); `none` is returned exactly when no request is detected. -/
theorem c7_unavailable_pair (live : String → String → ℚ → Option ℚ)
    (text : String) :
    (∀ num f t, searchCurrency (normalizeCurrencyL text.data) = some (num, f, t) →
      live (resolveCode f) (resolveCode t) (parsePyFloat num) = none →
      lookupRate (resolveCode f) (resolveCode t) = none →
      convert_currency live text =
        some ("Currency conversion not available for " ++ resolveCode f ++
          " to " ++ resolveCode t)) ∧
    (searchCurrency (normalizeCurrencyL text.data) = none →
      convert_currency live text = none) := by
  constructor
  · intro num f t hs hl hr
    exact convertScan_unavail live _ num f t hs hl hr
  · intro hs
    exact convertScan_none live _ hs

/-- Witness for C7: `"5 USD to XYZ"` is detected, XYZ is in no table, the
result is the unavailability string; `"hello"` is not detected and gives
`none`. -/
theorem c7_unavailable_pair_witness :
    convert_currency liveFail "5 USD to XYZ" =
      some "Currency conversion not available for USD to XYZ" ∧
    convert_currency liveFail "hello" = none := by
  constructor
  · have hn : normalizeCurrencyL "5 USD to XYZ".data = "5 USD to XYZ".data := by
      with_unfolding_all decide
    have hs : searchCurrency "5 USD to XYZ".data =
        some (['5'], (['U', 'S', 'D'], ['X', 'Y', 'Z'])) := by
      with_unfolding_all decide
    have h := (c7_unavailable_pair liveFail "5 USD to XYZ").1
      ['5'] ['U', 'S', 'D'] ['X', 'Y', 'Z'] (by rw [hn]; exact hs) rfl
      (by with_unfolding_all decide)
    exact h.trans (by with_unfolding_all decide)
  · exact (c7_unavailable_pair liveFail "hello").2 (by with_unfolding_all decide)

/-- Claim C9: the naive `'in' -> ' to '` replacement is case-sensitive, so
the lowercase request `"5 usd in inr"` (whose code `inr` contains `in`) is
corrupted to `"5 usd  to   to r"` and not detected, while the uppercase
`"5 USD in INR"` is detected and converted (whatever the live source does:
live success gives the live-rate string, live failure the fallback string). -/
theorem c9_lowercase_in_breaks (live : String → String → ℚ → Option ℚ) :
    convert_currency live "5 usd in inr" = none ∧
    convert_currency live "5 USD in INR" ≠ none := by
  constructor
  · have hn : normalizeCurrencyL "5 usd in inr".data = "5 usd  to   to r".data := by
      with_unfolding_all decide
    have hs : searchCurrency "5 usd  to   to r".data = none := by
      with_unfolding_all decide
    exact convertScan_none live _ (by rw [hn]; exact hs)
  · have hn : normalizeCurrencyL "5 USD in INR".data = "5 USD  to  INR".data := by
      with_unfolding_all decide
    have hs : searchCurrency "5 USD  to  INR".data =
        some (['5'], (['U', 'S', 'D'], ['I', 'N', 'R'])) := by
      with_unfolding_all decide
    have hs' : searchCurrency (normalizeCurrencyL "5 USD in INR".data) =
        some (['5'], (['U', 'S', 'D'], ['I', 'N', 'R'])) := by rw [hn]; exact hs
    cases hl : live (resolveCode ['U', 'S', 'D']) (resolveCode ['I', 'N', 'R'])
        (parsePyFloat ['5']) with
    | some conv =>
      have h := convertScan_live live _ _ _ _ conv hs' hl
      intro hc
      exact Option.noConfusion (h.symm.trans hc)
    | none =>
      have h := convertScan_fallback live _ _ _ _ 83.50 hs' hl
        (by with_unfolding_all decide)
      intro hc
      exact Option.noConfusion (h.symm.trans hc)

/-- Claim C2: `analyze_physics_equation` strips all whitespace and
full-string-matches (never substring) case-insensitively against the library
in order, returning the first matching description, `none` otherwise; in
particular `"F=ma"` (also `"f=MA"`, `" F = m a "`) gives Newton's second law
and `"F = m a + 1"` gives `none`. -/
theorem c2_physics_full_match :
    (∀ (t : String) (d : String), analyze_physics_equation t = some d ↔
      ∃ pat pre post, physics_patterns = pre ++ (pat, d) :: post ∧
        fullmatchP pat (stripWs t.data) = true ∧
        ∀ q ∈ pre, fullmatchP q.1 (stripWs t.data) = false) ∧
    analyze_physics_equation "F=ma" =
      some "Newton\x27s Second Law of Motion (Force = mass × acceleration)" ∧
    analyze_physics_equation "f=MA" =
      some "Newton\x27s Second Law of Motion (Force = mass × acceleration)" ∧
    analyze_physics_equation " F = m a " =
      some "Newton\x27s Second Law of Motion (Force = mass × acceleration)" ∧
    analyze_physics_equation "F = m a + 1" = none := by
  refine ⟨?_, by decide, by decide, by decide, by decide⟩
  intro t d
  constructor
  · intro h
    obtain ⟨b, hb, hbd⟩ := Option.map_eq_some'.mp h
    obtain ⟨hpb, pre, post, hl, hall⟩ := List.find?_eq_some.mp hb
    refine ⟨b.1, pre, post, ?_, hpb, ?_⟩
    · rw [hl, ← hbd]
    · intro q hq
      simpa using hall q hq
  · rintro ⟨pat, pre, post, hl, hm, hpre⟩
    exact Option.map_eq_some'.mpr ⟨(pat, d),
      List.find?_eq_some.mpr ⟨hm, pre, post, hl, fun a ha => by simp [hpre a ha]⟩,
      rfl⟩

/-- Claim C4 (amended): when none of the three strategies produces a result,
`format_math_expression` returns the preprocessed text (dollar signs
removed, `\dfrac` replaced by `\frac`) trimmed — which is the original text
trimmed whenever the input contains no `$` and no backslash.  (Totality is
by construction: the model, like the source with its bare `except`, returns
on every path.) -/
theorem c4_fallback_preprocessed (t : String)
    (hb : boxedSearch (preprocessMath t.data) = none)
    (ha : searchAnswer (preprocessMath t.data) = none)
    (hd : directEval (preprocessMath t.data) = none) :
    format_math_expression t = String.mk (pyStrip (preprocessMath t.data)) ∧
    ((∀ c ∈ t.data, c ≠ '$') → (∀ c ∈ t.data, c ≠ '\\') →
      preprocessMath t.data = t.data) := by
  constructor
  · simp only [format_math_expression, hb, ha, hd]
  · intro h1 h2
    unfold preprocessMath
    rw [replaceList_id _ _ _ _ h1, replaceList_id _ _ _ _ h2]

/-- Witness for C4's amended claim at `"hello"`: no strategy fires and the
text comes back unchanged. -/
theorem c4_fallback_preprocessed_witness :
    format_math_expression "hello" = "hello" := by
  have hp : preprocessMath "hello".data = "hello".data := by
    with_unfolding_all decide
  have h := (c4_fallback_preprocessed "hello"
    (by rw [hp]; decide) (by rw [hp]; decide)
    (by rw [hp]; with_unfolding_all decide)).1
  rw [h, hp]
  decide

/-- Counterexample to C4 as stated: on `"a$b"` no strategy produces a
result, yet the returned text is `"ab"`, not the original trimmed `"a$b"` —
the `$`-removal of the preprocessing step survives into the fallback. -/
theorem c4_counterexample :
    boxedSearch (preprocessMath "a$b".data) = none ∧
    searchAnswer (preprocessMath "a$b".data) = none ∧
    directEval (preprocessMath "a$b".data) = none ∧
    format_math_expression "a$b" = "ab" ∧
    String.mk (pyStrip "a$b".data) = "a$b" ∧
    ("ab" : String) ≠ "a$b" := by
  have hp : preprocessMath "a$b".data = "ab".data := by
    with_unfolding_all decide
  refine ⟨by rw [hp]; decide, by rw [hp]; decide,
    by rw [hp]; with_unfolding_all decide, ?_, by decide, by decide⟩
  simp only [format_math_expression, hp]
  rw [show boxedSearch "ab".data = none from by decide]
  rw [show searchAnswer "ab".data = none from by decide]
  rw [show directEval "ab".data = none from by with_unfolding_all decide]
  decide

/-- Counterexample to C5 as stated: the already-formatted answer `"3.5"` is
sent through the direct-evaluation strategy, which turns the non-integer
float into a `Fraction`, so it comes back as `"7/2"`, not unchanged. -/
theorem c5_counterexample :
    format_math_expression "3.5" = "7/2" ∧ ("7/2" : String) ≠ "3.5" := by
  constructor
  · have hp : preprocessMath "3.5".data = "3.5".data := by
      with_unfolding_all decide
    simp only [format_math_expression, hp]
    rw [show boxedSearch "3.5".data = none from by decide]
    rw [show searchAnswer "3.5".data = none from by decide]
    rw [show directEval "3.5".data = some "7/2" from by with_unfolding_all decide]
  · decide

/-- Claim C5 (amended): `format_math_expression` is not idempotent on
decimal answers — `"3.5"` becomes `"7/2"` — but the fraction form it
produces is a fixed point, so a second application changes nothing:
`format (format "3.5") = format "3.5"`, and `format "7/2" = "7/2"`. -/
theorem c5_idempotent_on_fraction_form :
    format_math_expression "7/2" = "7/2" ∧
    format_math_expression (format_math_expression "3.5") =
      format_math_expression "3.5" := by
  have h72 : format_math_expression "7/2" = "7/2" := by
    have hp : preprocessMath "7/2".data = "7/2".data := by
      with_unfolding_all decide
    simp only [format_math_expression, hp]
    rw [show boxedSearch "7/2".data = none from by decide]
    rw [show searchAnswer "7/2".data = none from by decide]
    rw [show directEval "7/2".data = some "7/2" from by with_unfolding_all decide]
  have h35 : format_math_expression "3.5" = "7/2" := by
    have hp : preprocessMath "3.5".data = "3.5".data := by
      with_unfolding_all decide
    simp only [format_math_expression, hp]
    rw [show boxedSearch "3.5".data = none from by decide]
    rw [show searchAnswer "3.5".data = none from by decide]
    rw [show directEval "3.5".data = some "7/2" from by with_unfolding_all decide]
  exact ⟨h72, by rw [h35, h72]⟩

/-- Counterexample to C6 as stated: on the claim's own example
`"The answer is 3.5"`, the rule of the claim — skip only colon/whitespace
after the keyword, return the rest of the line — yields `"is 3.5"`, while
the code returns `"3.5"`: the class `[\s:is]*` of the source also consumes
the letters `i` and `s`. -/
theorem c6_counterexample :
    format_math_expression "The answer is 3.5" = "3.5" ∧
    labeledAnswerClaimC6 "The answer is 3.5" = some "is 3.5" ∧
    ("3.5" : String) ≠ "is 3.5" := by
  refine ⟨?_, by decide, by decide⟩
  have hp : preprocessMath "The answer is 3.5".data = "The answer is 3.5".data := by
    with_unfolding_all decide
  simp only [format_math_expression, hp]
  rw [show boxedSearch "The answer is 3.5".data = none from by decide]
  rw [show searchAnswer "The answer is 3.5".data = some "3.5".data from by decide]
  decide

/-- Claim C6 (amended): with no boxed answer, `format_math_expression`
takes the first keyword occurrence and skips the run of whitespace, colons
and the letters i/s (case-insensitively) that follows — which may cross a
newline — then returns the rest of that line, brace/backslash characters
stripped and trimmed; so `"The answer is 3.5"` gives `"3.5"` (the `is` is
consumed by the class, not returned), and in general the result is the
group `searchAnswer` finds, cleaned. -/
theorem c6_labeled_answer :
    (∀ (t : String) (g : List Char),
      boxedSearch (preprocessMath t.data) = none →
      searchAnswer (preprocessMath t.data) = some g →
      format_math_expression t = String.mk (stripFmt (pyStrip g))) ∧
    format_math_expression "The answer is 3.5" = "3.5" ∧
    format_math_expression "The result: \x7b42\x7d" = "42" ∧
    format_math_expression "The answer:\n3.5" = "3.5" ∧
    format_math_expression "ANSWER: 7" = "7" := by
  refine ⟨?_, ?_, ?_, ?_, ?_⟩
  · intro t g hb ha
    simp only [format_math_expression, hb, ha]
  · have hp : preprocessMath "The answer is 3.5".data = "The answer is 3.5".data := by
      with_unfolding_all decide
    simp only [format_math_expression, hp]
    rw [show boxedSearch "The answer is 3.5".data = none from by decide]
    rw [show searchAnswer "The answer is 3.5".data = some "3.5".data from by decide]
    decide
  · have hp : preprocessMath "The result: \x7b42\x7d".data =
        "The result: \x7b42\x7d".data := by
      with_unfolding_all decide
    simp only [format_math_expression, hp]
    rw [show boxedSearch "The result: \x7b42\x7d".data = none from by decide]
    rw [show searchAnswer "The result: \x7b42\x7d".data = some "\x7b42\x7d".data from by
      decide]
    decide
  · have hp : preprocessMath "The answer:\n3.5".data = "The answer:\n3.5".data := by
      with_unfolding_all decide
    simp only [format_math_expression, hp]
    rw [show boxedSearch "The answer:\n3.5".data = none from by decide]
    rw [show searchAnswer "The answer:\n3.5".data = some "3.5".data from by decide]
    decide
  · have hp : preprocessMath "ANSWER: 7".data = "ANSWER: 7".data := by
      with_unfolding_all decide
    simp only [format_math_expression, hp]
    rw [show boxedSearch "ANSWER: 7".data = none from by decide]
    rw [show searchAnswer "ANSWER: 7".data = some "7".data from by decide]
    decide

/-- Claim C10: the string handed to the evaluator is the sanitized one —
only digits and `+ - * / ( ) .` survive —, evaluation is attempted only
when it is non-empty, and an evaluation failure makes the strategy fall
through silently to the final trimmed-text fallback. -/
theorem c10_eval_sanitized (t : String) :
    (∀ c ∈ cleanExpr (preprocessMath t.data),
      c.isDigit = true ∨ c = '+' ∨ c = '-' ∨ c = '*' ∨ c = '/' ∨
      c = '(' ∨ c = ')' ∨ c = '.') ∧
    (cleanExpr (preprocessMath t.data) = [] →
      directEval (preprocessMath t.data) = none) ∧
    (pyEval (cleanExpr (preprocessMath t.data)) = none →
      directEval (preprocessMath t.data) = none) ∧
    (boxedSearch (preprocessMath t.data) = none →
      searchAnswer (preprocessMath t.data) = none →
      directEval (preprocessMath t.data) = none →
      format_math_expression t = String.mk (pyStrip (preprocessMath t.data))) := by
  refine ⟨?_, ?_, ?_, ?_⟩
  · intro c hc
    have h := (List.mem_filter.mp hc).2
    simp at h
    tauto
  · intro h
    simp [directEval, h]
  · intro h
    unfold directEval
    by_cases he : (cleanExpr (preprocessMath t.data)).isEmpty
    · simp [he]
    · simp [he, h]
  · intro hb ha hd
    simp only [format_math_expression, hb, ha, hd]

theorem str_ne_empty_of_length_pos (s : String) (h : 0 < s.length) : s ≠ "" := by
  intro he
  subst he
  simp at h

theorem convertScan_ne_empty (live : String → String → ℚ → Option ℚ)
    (l : List Char) (c : String) (h : convertScan live l = some c) : c ≠ "" := by
  unfold convertScan at h
  cases hs : searchCurrency l with
  | none => rw [hs] at h; exact Option.noConfusion h
  | some r =>
    obtain ⟨num, f, t⟩ := r
    rw [hs] at h
    dsimp only [] at h
    cases hl : live (resolveCode f) (resolveCode t) (parsePyFloat num) with
    | some conv =>
      rw [hl] at h
      cases h
      apply str_ne_empty_of_length_pos
      rw [String.length_append]
      have h12 : (" (live rate)" : String).length = 12 := rfl
      omega
    | none =>
      rw [hl] at h
      dsimp only [] at h
      cases hr : lookupRate (resolveCode f) (resolveCode t) with
      | some rate =>
        rw [hr] at h
        cases h
        apply str_ne_empty_of_length_pos
        rw [String.length_append]
        have h19 : (" (approximate rate)" : String).length = 19 := rfl
        omega
      | none =>
        rw [hr] at h
        cases h
        apply str_ne_empty_of_length_pos
        simp only [String.length_append]
        have h38 : ("Currency conversion not available for " : String).length = 38 := rfl
        omega

theorem convert_ne_empty (live : String → String → ℚ → Option ℚ)
    (text : String) (c : String) (h : convert_currency live text = some c) :
    c ≠ "" :=
  convertScan_ne_empty live _ c h

theorem physics_desc_ne_empty (t : String) (p : String)
    (h : analyze_physics_equation t = some p) : p ≠ "" := by
  obtain ⟨b, hb, hbd⟩ := Option.map_eq_some'.mp h
  have hmem := List.mem_of_find?_eq_some hb
  have hall : ∀ pd ∈ physics_patterns, pd.2 ≠ "" := by decide
  rw [← hbd]
  exact hall b hmem

/-- A concrete fallback conversion, by the core lemma. -/
theorem convert_five_dollar :
    convert_currency liveFail "5 $ to ₹" =
      some "5.0 USD ≈ 417.5 INR (approximate rate)" := by
  have h := convert_fallback_core liveFail "5" "$" "₹" 83.50
    ⟨['5'], [], by decide, by decide, by decide, Or.inl rfl⟩
    (fun rest => rfl) (fun rest => rfl) (by decide) (by decide)
    (by decide) (by decide) rfl (by with_unfolding_all decide)
  have e1 : floatRepr (parsePyFloat "5".data) = "5.0" := by
    with_unfolding_all decide
  have e2 : floatRepr (round2 (parsePyFloat "5".data * 83.50)) = "417.5" := by
    with_unfolding_all decide
  rw [e1, e2] at h
  have e3 : ("5.0" ++ " " ++ resolveCode "$".data ++ " ≈ " ++ "417.5" ++ " " ++
      resolveCode "₹".data ++ " (approximate rate)" : String) =
      "5.0 USD ≈ 417.5 INR (approximate rate)" := by
    with_unfolding_all decide
  rw [e3] at h
  exact h

/-- Claim C1: the pipeline tries the Currency Normalizer, then the Physics
Matcher, then the Math Formatter, returning the first truthy result (each
produced result is in fact non-empty, so the truthiness checks reduce to
the `Option`); when currency and physics yield nothing and the formatter
leaves the text unchanged, the raw text itself is returned.  The concrete
clauses exercise each arm (a currency request that also reaches no other
matcher first, a physics equation, and inert text). -/
theorem c1_pipeline_priority :
    (∀ (live : String → String → ℚ → Option ℚ) (raw : String),
      classify_and_format live raw =
        match convert_currency live raw with
        | some c => c
        | none =>
          match analyze_physics_equation raw with
          | some p => "Physics Equation: " ++ p
          | none =>
            if format_math_expression raw ≠ raw then format_math_expression raw
            else raw) ∧
    classify_and_format liveFail "5 $ to ₹" =
      "5.0 USD ≈ 417.5 INR (approximate rate)" ∧
    classify_and_format liveFail "F=ma" =
      "Physics Equation: Newton\x27s Second Law of Motion (Force = mass × acceleration)" ∧
    classify_and_format liveFail "hello" = "hello" := by
  refine ⟨?_, ?_, ?_, ?_⟩
  · intro live raw
    cases hc : convert_currency live raw with
    | some c =>
      simp only [classify_and_format, hc]
      rw [if_pos (convert_ne_empty live raw c hc)]
    | none =>
      simp only [classify_and_format, hc, physStage]
      cases hp : analyze_physics_equation raw with
      | some p =>
        simp only []
        rw [if_pos (physics_desc_ne_empty raw p hp)]
      | none => simp only [mathStage]
  · unfold classify_and_format
    rw [convert_five_dollar]
    dsimp only []
    rw [if_pos (by decide : ("5.0 USD ≈ 417.5 INR (approximate rate)" : String) ≠ "")]
  · have hn : normalizeCurrencyL "F=ma".data = "F=ma".data := by
      with_unfolding_all decide
    have hcv : convert_currency liveFail "F=ma" = none :=
      convertScan_none liveFail _ (by rw [hn]; decide)
    have hph : analyze_physics_equation "F=ma" =
        some "Newton\x27s Second Law of Motion (Force = mass × acceleration)" := by
      decide
    simp only [classify_and_format, hcv, physStage, hph]
    rw [if_pos (by decide :
      ("Newton\x27s Second Law of Motion (Force = mass × acceleration)" : String) ≠ "")]
    decide
  · have hn : normalizeCurrencyL "hello".data = "hello".data := by
      with_unfolding_all decide
    have hcv : convert_currency liveFail "hello" = none :=
      convertScan_none liveFail _ (by rw [hn]; decide)
    have hph : analyze_physics_equation "hello" = none := by decide
    have hm : format_math_expression "hello" = "hello" := by
      have hp : preprocessMath "hello".data = "hello".data := by
        with_unfolding_all decide
      simp only [format_math_expression, hp]
      rw [show boxedSearch "hello".data = none from by decide]
      rw [show searchAnswer "hello".data = none from by decide]
      rw [show directEval "hello".data = none from by with_unfolding_all decide]
      decide
    simp only [classify_and_format, hcv, physStage, hph, mathStage, hm]
    simp

/-- Counterexample to C8 as stated: an exception raised by the inference
call propagates to the outer handler and comes back under the `error` key —
a hard failure — not as the `"No response from AI"` result the claim
asserts for every failure. -/
theorem c8_counterexample :
    analyze_image liveFail (GatewayReply.raises "network error") =
      ApiResponse.error "network error" ∧
    ApiResponse.error "network error" ≠
      ApiResponse.result "No response from AI" := by
  exact ⟨rfl, by decide⟩

/-- Claim C8 (amended): an empty or missing response from the model is
surfaced as the distinct `"No response from AI"` value under the `result`
key, but an exception raised by the inference call is surfaced under the
`error` key; a truthy text goes through the pipeline as a `result`. -/
theorem c8_no_response (live : String → String → ℚ → Option ℚ) (m t : String) :
    analyze_image live (GatewayReply.reply none) =
      ApiResponse.result "No response from AI" ∧
    analyze_image live (GatewayReply.reply (some "")) =
      ApiResponse.result "No response from AI" ∧
    analyze_image live (GatewayReply.raises m) = ApiResponse.error m ∧
    (t ≠ "" → analyze_image live (GatewayReply.reply (some t)) =
      ApiResponse.result (classify_and_format live (String.mk (pyStrip t.data)))) := by
  refine ⟨rfl, ?_, rfl, ?_⟩
  · simp [analyze_image]
  · intro h
    simp [analyze_image, h]
